import Mathlib

/-!
Verification of the node-tree extraction / feedback parsing / node
resolution / comment dispatch pipeline of the hdfc-figma-reviewer
repository.

The TypeScript sources are embedded shallowly:

* `traverseNode` / `extractCanvasData` embed the server-side tree extractor of
  `supabase/functions/analyze-figma/index.ts` (function `extractCanvasData`).
* `extractNodeData` embeds the Figma-plugin extractor of
  `figma-plugin/code.ts` (function `extractNodeData`).
* `extractAllNodes`, `findParentFrame`, `findNodeByName`, `chainCleanup`,
  `resolveNode`, `finalNodeOf`, `offsetXOf` and `dispatch` embed the
  comment-posting handler of `supabase/functions/post-figma-comments/index.ts`.
* `Json`, `withId`, `processFeedback` embed the feedback-parsing stage of
  `supabase/functions/analyze-plugin/index.ts`.

JavaScript `undefined`/absent fields are modelled as `Option`; JavaScript
string truthiness (`if (s)`) is `strTruthy`; machine floats occur only in
`opacity`, which the code compares for exact equality with 0, so it is
modelled as an exact rational.
-/

/-- JS truthiness of a possibly-undefined string: `undefined` and `""` are
falsy, every other string is truthy. -/
def strTruthy : Option String → Bool
  | none => false
  | some s => s ≠ ""

/-- JS string interpolation of a possibly-undefined value:
a template literal renders `undefined` as the text "undefined". -/
def jsDisplay : Option String → String
  | none => "undefined"
  | some s => s

/-- `hay` starts with `needle` (JS `String.prototype.startsWith`), on
character lists. -/
def charsStartWith : List Char → List Char → Bool
  | _, [] => true
  | [], _ :: _ => false
  | c :: cs, p :: ps => c = p && charsStartWith cs ps

/-- JS `s.startsWith(p)`. -/
def jsStartsWith (s p : String) : Bool := charsStartWith s.data p.data

/-- `needle` occurs somewhere in `hay` (JS `String.prototype.includes`). -/
def charsInfix : List Char → List Char → Bool
  | [], needle => needle.isEmpty
  | h :: t, needle => charsStartWith (h :: t) needle || charsInfix t needle

/-- JS `s.includes(sub)`. -/
def jsIncludes (s sub : String) : Bool := charsInfix s.data sub.data

/-- JS `s.split(sep)` for a one-character separator, on character lists:
`"a;;b"` splits to `["a", "", "b"]` and `""` splits to `[""]`. -/
def splitChars (sep : Char) : List Char → List (List Char)
  | [] => [[]]
  | c :: cs =>
    match splitChars sep cs with
    | [] => [[]]
    | x :: xs => if c = sep then [] :: x :: xs else (c :: x) :: xs

/-- JS `s.split(sep)` for a one-character separator. -/
def jsSplit (s : String) (sep : Char) : List String :=
  (splitChars sep s.data).map String.mk

/-- JS `s.toLowerCase()` (ASCII case folding, which covers every string the
pipeline compares). -/
def jsToLower (s : String) : String := String.mk (s.data.map Char.toLower)

/-- JS `s.includes(c)` for a single character. -/
def jsHasChar (s : String) (c : Char) : Bool := s.data.contains c

/-!  ## Server-side tree extractor (`analyze-figma/index.ts`)  -/

/-- A node of the JSON tree returned by the Figma REST API, as consumed by
the server functions.  Every field the traversals read may be absent. -/
inductive ApiNode where
  | mk (id name ty : Option String) (visible : Option Bool) (opacity : Option ℚ)
       (characters : Option String) (children : List ApiNode)

def ApiNode.id : ApiNode → Option String
  | .mk i _ _ _ _ _ _ => i

def ApiNode.name : ApiNode → Option String
  | .mk _ n _ _ _ _ _ => n

def ApiNode.type : ApiNode → Option String
  | .mk _ _ t _ _ _ _ => t

def ApiNode.visible : ApiNode → Option Bool
  | .mk _ _ _ v _ _ _ => v

def ApiNode.opacity : ApiNode → Option ℚ
  | .mk _ _ _ _ o _ _ => o

def ApiNode.characters : ApiNode → Option String
  | .mk _ _ _ _ _ c _ => c

def ApiNode.children : ApiNode → List ApiNode
  | .mk _ _ _ _ _ _ cs => cs

/-- One extracted node descriptor (`extractCanvasData`'s `nodes` entries):
`{ id, name, type, path, text? }`.  `name` and `path` may be `undefined`
because the source copies them without a default. -/
structure Desc where
  id : String
  name : Option String
  type : String
  path : Option String
  text : Option String
deriving DecidableEq

/-- `path ? path + " > " + node.name : node.name` — the breadcrumb is
extended with the node's name before any inclusion check. -/
def currentPathOf (path : String) (name : Option String) : Option String :=
  if path ≠ "" then some (path ++ " > " ++ jsDisplay name) else name

/-- Argument passed to the recursive `traverse(child, currentPath)` call:
a JS default parameter turns `undefined` back into `""`. -/
def childPath (cp : Option String) : String := cp.getD ""

mutual
/-- `extractCanvasData`'s inner `traverse` (renamed here: Mathlib already
has a `traverse`) (analyze-figma/index.ts):
skip the subtree when `visible === false`, emit a descriptor when both
`type` and `id` are truthy, and recurse into children with the extended
breadcrumb.  There is no opacity check and no depth cap here. -/
def traverseNode : ApiNode → String → List Desc
  | .mk i nm ty vis _op ch children, path =>
    if vis = some false then []
    else
      let currentPath := currentPathOf path nm
      let self : List Desc :=
        if strTruthy ty && strTruthy i then
          [{ id := i.getD "", name := nm, type := ty.getD "", path := currentPath,
             text := if ty = some "TEXT" && strTruthy ch then ch else none }]
        else []
      self ++ traverseList children (childPath currentPath)

def traverseList : List ApiNode → String → List Desc
  | [], _ => []
  | x :: xs, p => traverseNode x p ++ traverseList xs p
end

/-- Top-level `traverse(document)` call: `if (!node) return` makes a
null/undefined root contribute nothing. -/
def traverseOpt : Option ApiNode → String → List Desc
  | none, _ => []
  | some n, p => traverseNode n p

/-- `{ name, nodes }`, the bounded prioritized payload. -/
structure CanvasPayload where
  name : Option String
  nodes : List Desc
deriving DecidableEq

/-- `n.type === "TEXT" && n.text` — the text-priority filter. -/
def isTextDesc (n : Desc) : Bool := n.type = "TEXT" && strTruthy n.text

/-- `extractCanvasData(document)`: traverse, partition into text nodes and
other nodes, truncate to 300.  Reading `document.name` on a null root
throws a `TypeError`, modelled as `Except.error`. -/
def extractCanvasData (doc : Option ApiNode) : Except String CanvasPayload :=
  let nodes := traverseOpt doc ""
  let textNodes := nodes.filter isTextDesc
  let otherNodes := nodes.filter fun n => !(isTextDesc n)
  let prioritized := (textNodes ++ otherNodes).take 300
  match doc with
  | none => Except.error "TypeError: Cannot read properties of null (reading name)"
  | some d => Except.ok { name := d.name, nodes := prioritized }

/-!  ## Plugin-side tree extractor (`figma-plugin/code.ts`)  -/

/-- A live scene node as the plugin sees it.  `id`, `name`, `type` and
`visible` always exist on a `SceneNode`; `opacity` and `children` exist
only on some node classes (the `'opacity' in node` / `'children' in node`
checks), hence `Option`. -/
inductive PluginNode where
  | mk (id name ty : String) (visible : Bool) (opacity : Option ℚ)
       (children : Option (List PluginNode))

def PluginNode.id : PluginNode → String
  | .mk i _ _ _ _ _ => i

def PluginNode.visible : PluginNode → Bool
  | .mk _ _ _ v _ _ => v

def PluginNode.opacity : PluginNode → Option ℚ
  | .mk _ _ _ _ o _ => o

/-- The plugin's extracted `DesignNode` (geometry/style fields that no
claim touches are elided; the fields the exclusion logic reads are kept). -/
inductive DesignNode where
  | mk (id name ty : String) (visible : Bool) (opacity : Option ℚ)
       (children : Option (List DesignNode))

def DesignNode.visible : DesignNode → Bool
  | .mk _ _ _ v _ _ => v

def DesignNode.opacity : DesignNode → Option ℚ
  | .mk _ _ _ _ o _ => o

mutual
/-- `extractNodeData(node, depth)` (figma-plugin/code.ts): `null` when
`depth > 10`, when `!node.visible`, or when `'opacity' in node &&
node.opacity === 0`; otherwise a descriptor whose `children` field is set
only when at least one child survived. -/
def extractNodeData : PluginNode → Nat → Option DesignNode
  | .mk i nm ty vis op ch, depth =>
    if depth > 10 then none
    else if !vis then none
    else if op = some 0 then none
    else
      let childrenOut : Option (List DesignNode) :=
        match ch with
        | none => none
        | some cs =>
          let l := extractKids cs (depth + 1)
          if l.length > 0 then some l else none
      some (.mk i nm ty vis op childrenOut)

/-- The `for (const child of node.children)` loop collecting the non-null
child extractions. -/
def extractKids : List PluginNode → Nat → List DesignNode
  | [], _ => []
  | c :: cs, d =>
    match extractNodeData c d with
    | some x => x :: extractKids cs d
    | none => extractKids cs d
end

mutual
/-- Flattens an extracted plugin subtree into the list of all descriptors
it contains (the "output list" of the extraction). -/
def collectD : DesignNode → List DesignNode
  | .mk i nm ty vis op ch =>
    .mk i nm ty vis op ch ::
      (match ch with
       | none => []
       | some cs => collectDList cs)

def collectDList : List DesignNode → List DesignNode
  | [] => []
  | x :: xs => collectD x ++ collectDList xs
end

/-!  ## Live index and node resolver (`post-figma-comments/index.ts`)  -/

/-- The per-request live index: `allNodes`, `nodeNameMap`, `nodeTypeMap`
and `nodeParentMap`, built by `extractAllNodes` from the fetched file. -/
structure LiveIndex where
  allNodes : List String
  nameMap : List (String × String)
  typeMap : List (String × String)
  parentMap : List (String × String)
deriving DecidableEq

/-- JS object property read (`map[k]`). -/
def lookupKV (m : List (String × String)) (k : String) : Option String :=
  (m.find? fun p => p.1 = k).map (·.2)

/-- JS object property assignment (`map[k] = v`, overwriting). -/
def setKV (m : List (String × String)) (k v : String) : List (String × String) :=
  (m.filter fun p => p.1 ≠ k) ++ [(k, v)]

mutual
/-- `extractAllNodes(node, parentId)`: push every truthy id, record
`name || 'Unnamed'` and `type || 'UNKNOWN'`, record the parent when the
passed `parentId` is truthy, then recurse into children passing the raw
`node.id` as their parent. -/
def extractAllNodes : ApiNode → Option String → LiveIndex → LiveIndex
  | .mk i nm ty _vis _op _ch children, parentId, acc =>
    let acc1 :=
      if strTruthy i then
        let iid := i.getD ""
        { allNodes := acc.allNodes ++ [iid]
          nameMap := setKV acc.nameMap iid (if strTruthy nm then nm.getD "" else "Unnamed")
          typeMap := setKV acc.typeMap iid (if strTruthy ty then ty.getD "" else "UNKNOWN")
          parentMap :=
            if strTruthy parentId then setKV acc.parentMap iid (parentId.getD "")
            else acc.parentMap }
      else acc
    extractAllList children i acc1

def extractAllList : List ApiNode → Option String → LiveIndex → LiveIndex
  | [], _, acc => acc
  | c :: cs, pid, acc => extractAllList cs pid (extractAllNodes c pid acc)
end

/-- `if (figmaData.document) extractAllNodes(figmaData.document)`. -/
def buildIndex (doc : Option ApiNode) : LiveIndex :=
  match doc with
  | none => ⟨[], [], [], []⟩
  | some d => extractAllNodes d none ⟨[], [], [], []⟩

/-- The ancestor types `findParentFrame` promotes to. -/
def frameTypes : List String := ["FRAME", "COMPONENT", "INSTANCE"]

/-- The `while (currentId && depth < maxDepth)` walk of `findParentFrame`,
fuelled by the remaining allowed iterations (`maxDepth = 10`).  `none`
means the walk ended without meeting a frame/component/instance. -/
def parentLoop (idx : LiveIndex) : Nat → String → Option String
  | 0, _ => none
  | fuel + 1, currentId =>
    if currentId = "" then none
    else
      match lookupKV idx.parentMap currentId with
      | none => none
      | some parentId =>
        if parentId = "" then none
        else if frameTypes.contains ((lookupKV idx.typeMap parentId).getD "") then
          some parentId
        else parentLoop idx fuel parentId

/-- `findParentFrame(nodeId)`: the nearest FRAME/COMPONENT/INSTANCE
ancestor within 10 hops, or the original id. -/
def findParentFrame (idx : LiveIndex) (nodeId : String) : String :=
  (parentLoop idx 10 nodeId).getD nodeId

mutual
/-- `findNodeByName(node, searchName)`: case-insensitive two-way substring
match on the name, depth-first, first hit wins; a matching node returns
its (possibly undefined) id. -/
def findNodeByName : ApiNode → String → Option String
  | .mk i nm _ty _vis _op _ch children, searchName =>
    let ns := jsToLower searchName
    let nn := jsToLower (nm.getD "")
    if jsIncludes nn ns || jsIncludes ns nn then i
    else findNameInKids children searchName

/-- The `for (const child of node.children)` search: keep the first truthy
child result. -/
def findNameInKids : List ApiNode → String → Option String
  | [], _ => none
  | c :: cs, s =>
    let found := findNodeByName c s
    if strTruthy found then found else findNameInKids cs s
end

/-- The `for (let i = parts.length - 1; i >= 0; i--)` scan: argument
`k` means indices `k-1, k-2, …, 0` remain to be tried. -/
def scanChainAux (allNodes parts : List String) : Nat → Option String
  | 0 => none
  | k + 1 =>
    if allNodes.contains (parts.getD k "") then some (parts.getD k "")
    else scanChainAux allNodes parts k

/-- `if (nodeId.startsWith('I')) nodeId = nodeId.substring(1)`. -/
def stripI (raw : String) : String :=
  if jsStartsWith raw "I" then String.mk (raw.data.drop 1) else raw

/-- `nodeId.split(';').filter(part => !part.startsWith('0:'))`. -/
def chainParts (s : String) : List String :=
  (jsSplit s ';').filter fun p => !(jsStartsWith p "0:")

/-- Tier 0, the instance-chain cleanup (post-figma-comments/index.ts,
lines 118-143): strip a leading `"I"`, and for semicolon chains drop
`"0:"`-prefixed segments, scan the rest from last to first for a segment
in `allNodes` (second component: `nodeFound`), else keep the last
segment verbatim (`parts[parts.length - 1]`, `undefined` when `parts` is
empty). -/
def chainCleanup (allNodes : List String) (raw : String) : Option String × Bool :=
  let n1 := stripI raw
  if jsHasChar n1 ';' then
    (scanChainAux allNodes (chainParts n1) (chainParts n1).length).elim
      ((chainParts n1).getLast?, false) (fun p => (some p, true))
  else (some n1, false)

/-- Tiers 0: `let nodeId = item.nodeId; if (nodeId) { …chain cleanup… }`.
The pair is the running `(nodeId, nodeFound)` state. -/
def tierZero (allNodes : List String) (claimed : Option String) : Option String × Bool :=
  match claimed with
  | some raw => if raw ≠ "" then chainCleanup allNodes raw else (some raw, false)
  | none => (none, false)

/-- Tier 1: `if (nodeId && allNodes.includes(nodeId)) nodeFound = true`. -/
def tierOne (allNodes : List String) (st : Option String × Bool) : Option String × Bool :=
  (st.1, st.2 || (strTruthy st.1 && allNodes.contains (st.1.getD "")))

/-- Tier 2: `if (!nodeFound && item.location)` name search against the
fetched document. -/
def tierTwo (doc : Option ApiNode) (idx : LiveIndex) (loc : Option String)
    (st : Option String × Bool) : Option String × Bool :=
  if !st.2 && strTruthy loc then
    match doc with
    | none => st
    | some d =>
      let found := findNodeByName d (loc.getD "")
      if strTruthy found && idx.allNodes.contains (found.getD "") then (found, true)
      else st
  else st

/-- Tier 3: `if (!nodeFound) nodeId = allNodes.find(id =>
!id.startsWith('0:') && !id.includes(';')) || allNodes[2]`.  A falsy
`find` result falls through to `allNodes[2]`, which is `undefined` when
fewer than three ids exist. -/
def tierThree (allNodes : List String) (st : Option String × Bool) : Option String :=
  if !st.2 then
    let fb := allNodes.find? fun id => !(jsStartsWith id "0:") && !(jsHasChar id ';')
    if strTruthy fb then fb else allNodes.get? 2
  else st.1

/-- The tiered resolution of one feedback item's claimed node reference
(post-figma-comments/index.ts, lines 112-167), tiers run in source order.
`none` is JS `undefined`.  The function is total: the source never throws
on this path. -/
def resolveNode (doc : Option ApiNode) (idx : LiveIndex) (claimed loc : Option String) :
    Option String :=
  tierThree idx.allNodes
    (tierTwo doc idx loc (tierOne idx.allNodes (tierZero idx.allNodes claimed)))

/-- The leaf check: keep FRAME/COMPONENT/INSTANCE/GROUP targets as they
are, promote everything else. -/
def bigTypes : List String := ["FRAME", "COMPONENT", "INSTANCE", "GROUP"]

/-- `shouldUseParent = nodeType && !['FRAME','COMPONENT','INSTANCE','GROUP'].includes(nodeType)`. -/
def shouldUseParentOf (idx : LiveIndex) (resolved : Option String) : Bool :=
  let nodeType :=
    match resolved with
    | none => none
    | some nid => lookupKV idx.typeMap nid
  strTruthy nodeType && !(bigTypes.contains (nodeType.getD ""))

/-- `finalNodeId`: the resolved id after contextual promotion. -/
def finalNodeOf (idx : LiveIndex) (resolved : Option String) : Option String :=
  if shouldUseParentOf idx resolved then
    match resolved with
    | some nid => some (findParentFrame idx nid)
    | none => none
  else resolved

/-!  ## Comment dispatcher: offsets and per-item error isolation  -/

/-- One inbound feedback item, restricted to the fields the resolution and
offset logic reads. -/
structure FbItem where
  nodeId : Option String
  location : Option String
deriving DecidableEq

/-- Resolution of one item against the live document and index. -/
def resolvedOf (doc : Option ApiNode) (idx : LiveIndex) (it : FbItem) : Option String :=
  resolveNode doc idx it.nodeId it.location

/-- `commentsOnSameNode` for the item at position `i`: count the previous
items whose raw `nodeId || ''`, run through `findParentFrame` exactly when
the *current* item promotes, equals the current item's `finalNodeId`. -/
def sameNodeCount (doc : Option ApiNode) (idx : LiveIndex) (items : List FbItem) (i : Nat) :
    Nat :=
  let resolved :=
    match items.get? i with
    | some it => resolvedOf doc idx it
    | none => none
  let sup := shouldUseParentOf idx resolved
  let finalId := finalNodeOf idx resolved
  ((items.take i).filter fun f =>
    let prevNodeId := f.nodeId.getD ""
    let prevFinal := if sup then findParentFrame idx prevNodeId else prevNodeId
    finalId == some prevFinal).length

/-- `offsetX = 50 + commentsOnSameNode * 250`. -/
def offsetXOf (doc : Option ApiNode) (idx : LiveIndex) (items : List FbItem) (i : Nat) :
    Nat :=
  50 + sameNodeCount doc idx items i * 250

/-- `offsetY = 50 + i * 120`. -/
def offsetYOf (i : Nat) : Nat := 50 + i * 120

/-- Outcome of the try-block body for one item: the POST succeeded, the
POST returned a non-ok response with body text, or something threw (whose
message the catch reads). -/
inductive PostOutcome where
  | posted
  | httpError (msg : String)
  | thrown (msg : String)
deriving DecidableEq

/-- The text appended after the `Comment <n>: ` tag for a failed item. -/
def outcomeMsg : PostOutcome → String
  | .posted => ""
  | .httpError m => m
  | .thrown m => m

/-- The per-item posting loop, processing items `i, i+1, …` while `n`
remain: success increments the counter, every failure appends one tagged
entry to `errors`, and no failure stops the loop. -/
def postLoopFrom (post : Nat → PostOutcome) : Nat → Nat → Nat × List String
  | _, 0 => (0, [])
  | i, n + 1 =>
    let rest := postLoopFrom post (i + 1) n
    match post i with
    | .posted => (rest.1 + 1, rest.2)
    | .httpError m => (rest.1, ("Comment " ++ toString (i + 1) ++ ": " ++ m) :: rest.2)
    | .thrown m => (rest.1, ("Comment " ++ toString (i + 1) ++ ": " ++ m) :: rest.2)

/-- The success envelope `{ success: true, commentsPosted, total, errors? }`
(`errors` is omitted when empty). -/
structure PostEnvelope where
  success : Bool
  commentsPosted : Nat
  total : Nat
  errors : Option (List String)
deriving DecidableEq

/-- The collected `errors` list after the loop. -/
def errListOf (post : Nat → PostOutcome) (items : List FbItem) : List String :=
  (postLoopFrom post 0 items.length).2

/-- The whole posting loop plus response construction. -/
def dispatch (post : Nat → PostOutcome) (items : List FbItem) : PostEnvelope :=
  let r := postLoopFrom post 0 items.length
  { success := true
    commentsPosted := r.1
    total := items.length
    errors := if r.2.length > 0 then some r.2 else none }

/-!  ## Feedback parsing stage (`analyze-plugin/index.ts`)  -/

/-- A parsed JSON value (what `JSON.parse` produced). -/
inductive Json where
  | null
  | bool (b : Bool)
  | num (n : Int)
  | str (s : String)
  | arr (elems : List Json)
  | obj (fields : List (String × Json))

/-- Object field read (`item.category`); non-objects have no fields.
(JS string spreading of primitive values is irrelevant here: only objects
carry a `category`.) -/
def getField : Json → String → Option Json
  | .obj fs, k => (fs.find? fun p => p.1 = k).map (·.2)
  | _, _ => none

/-- Whether an object literal already has key `k`. -/
def hasKey (fs : List (String × Json)) (k : String) : Bool :=
  fs.any fun p => p.1 = k

/-- `{ ...item, id: v }`: spread the item and overwrite/append `id`. -/
def withId : Json → Json → Json
  | .obj fs, v =>
    if hasKey fs "id" then .obj (fs.map fun p => if p.1 = "id" then (p.1, v) else p)
    else .obj (fs ++ [("id", v)])
  | _, v => .obj [("id", v)]

/-- `feedback.map((item, index) => ({ ...item, id:
`feedback-` + index + `-` + Date.now() }))`, with `start` the index of the
first remaining element and `now` the wallclock. -/
def withIds (now : Nat) : List Json → Nat → List Json
  | [], _ => []
  | x :: xs, start =>
    withId x (.str ("feedback-" ++ toString start ++ "-" ++ toString now)) ::
      withIds now xs (start + 1)

/-- The post-`JSON.parse` stage of the feedback parser
(analyze-plugin/index.ts, lines 208-229): reject non-arrays, then tag every
element with a synthesized id.  No category validation happens anywhere on
this path — `allowedCategories` is not even in scope here. -/
def processFeedback (v : Json) (now : Nat) : Except String (List Json) :=
  match v with
  | .arr items => Except.ok (withIds now items 0)
  | _ => Except.error "Failed to parse AI analysis results"

/-!  ## Concrete fixtures used by the scenario theorems  -/

/-- A document whose only node is the root sentinel `0:0`. -/
def doc0 : ApiNode := .mk (some "0:0") (some "Document") (some "DOCUMENT") none none none []

/-- A one-node document whose node id is `11:20` (scenario C's live index,
with `allIds` exactly containing `11:20`). -/
def docBtn : ApiNode := .mk (some "11:20") (some "Primary Button") (some "TEXT") none none
  (some "Pay") []

/-- A visible node whose opacity is exactly 0. -/
def exOp : ApiNode := .mk (some "1:1") (some "Ghost") (some "FRAME") none (some 0) none []

/-- One TEXT leaf with non-empty content (scenario D's repeated node). -/
def textNodeEx : ApiNode := .mk (some "1:1") (some "Label") (some "TEXT") none none
  (some "hello") []

/-- Its descriptor as produced under the parent path "Doc". -/
def descT : Desc :=
  { id := "1:1", name := some "Label", type := "TEXT", path := some "Doc > Label",
    text := some "hello" }

/-- Scenario D: a document with 400 text nodes. -/
def bigDoc : ApiNode := .mk (some "0:0") (some "Doc") (some "DOCUMENT") none none none
  (List.replicate 400 textNodeEx)

/-- TEXT leaf under the id-less group. -/
def leafNode : ApiNode := .mk (some "l") (some "Leaf") (some "TEXT") none none (some "hi") []

/-- A group without an `id` field: omitted itself, children still walked. -/
def midNode : ApiNode := .mk none (some "Mid") (some "GROUP") none none none [leafNode]

/-- Root frame above the id-less group. -/
def docMid : ApiNode := .mk (some "r") (some "Root") (some "FRAME") none none none [midNode]

/-- TEXT leaf `3:4` inside frame `2:2` (scenario E's document). -/
def text34 : ApiNode := .mk (some "3:4") (some "Price Label") (some "TEXT") none none
  (some "99") []

/-- FRAME `2:2`, parent of `3:4`. -/
def frame22 : ApiNode := .mk (some "2:2") (some "Card") (some "FRAME") none none none [text34]

/-- Scenario E's document: root, one frame, one text leaf. -/
def docC : ApiNode := .mk (some "0:0") (some "Document") (some "DOCUMENT") none none none
  [frame22]

/-- Scenario E's live index. -/
def idxC : LiveIndex := buildIndex (some docC)

/-- Five items all referencing `3:4` through an instance chain. -/
def itemsChain : List FbItem := List.replicate 5 ⟨some "I0:9;3:4", none⟩

/-- Five items all referencing `3:4` by its plain id. -/
def itemsPlain : List FbItem := List.replicate 5 ⟨some "3:4", none⟩

/-- A linear plugin-side chain of `k + 1` nodes, all visible. -/
def plugChain : Nat → PluginNode
  | 0 => .mk "leaf" "Leaf" "RECTANGLE" true none none
  | k + 1 => .mk "box" "Box" "FRAME" true none (some [plugChain k])

/-- A linear REST-API chain of `k + 1` nodes, the deepest with id `deep`. -/
def apiChain : Nat → ApiNode
  | 0 => .mk (some "deep") (some "DeepLeaf") (some "RECTANGLE") none none none []
  | k + 1 => .mk (some "n") (some "Box") (some "FRAME") none none none [apiChain k]

/-!  ## Helper lemmas  -/

theorem mem_of_containsStr {l : List String} {a : String} (h : l.contains a = true) :
    a ∈ l := by
  simpa using h

theorem containsStr_of_mem {l : List String} {a : String} (h : a ∈ l) :
    l.contains a = true := by
  simpa using h

theorem scanChainAux_eq_find (allNodes parts : List String) :
    ∀ k, k ≤ parts.length →
      scanChainAux allNodes parts k =
        ((parts.take k).reverse.find? fun p => allNodes.contains p) := by
  intro k
  induction k with
  | zero => intro _; simp [scanChainAux]
  | succ n ih =>
    intro hk
    have hn : n < parts.length := hk
    have htake : parts.take (n + 1) = parts.take n ++ [parts.get ⟨n, hn⟩] := by
      simp [List.take_succ, List.get?_eq_get hn]
    have hget : parts.getD n "" = parts.get ⟨n, hn⟩ := by
      simp [List.getD, List.getElem?_eq_getElem hn]
    rw [htake, List.reverse_append]
    simp only [List.reverse_cons, List.reverse_nil, List.nil_append, List.singleton_append,
      List.find?]
    rw [scanChainAux, hget]
    cases hc : allNodes.contains (parts.get ⟨n, hn⟩) with
    | true => simp [hc]
    | false => simp [hc, ih (Nat.le_of_lt hn)]

theorem traverseList_replicate (n : Nat) :
    traverseList (List.replicate n textNodeEx) "Doc" = List.replicate n descT := by
  induction n with
  | zero => simp [traverseList]
  | succ k ih =>
    have h1 : traverseNode textNodeEx "Doc" = [descT] := by decide
    simp [List.replicate_succ, traverseList, h1, ih]

/-!  ## Claim theorems  -/

/-- C6 (amended): a null/undefined root contributes no descriptors to the
traversal, but `extractCanvasData` then reads `document.name` on the null
root and throws a TypeError; the caller receives an error, not an empty
payload. -/
theorem null_root_raises :
    traverseOpt none "" = []
    ∧ extractCanvasData none =
        Except.error "TypeError: Cannot read properties of null (reading name)" :=
  ⟨rfl, rfl⟩

/-- C6 counterexample: applied to a null root, the extractor does not
return a payload at all — the claim that it returns an empty
`CanvasPayload` fails. -/
theorem null_root_empty_payload_refuted :
    (extractCanvasData none).isOk = false := rfl

theorem filter_replicate_of_true {α : Type} (f : α → Bool) (a : α) (h : f a = true) :
    ∀ n, (List.replicate n a).filter f = List.replicate n a := by
  intro n
  induction n with
  | zero => rfl
  | succ k ih => simp [List.replicate_succ, List.filter_cons, h, ih]

theorem filter_replicate_of_false {α : Type} (f : α → Bool) (a : α) (h : f a = false) :
    ∀ n, (List.replicate n a).filter f = [] := by
  intro n
  induction n with
  | zero => rfl
  | succ k ih => simp [List.replicate_succ, List.filter_cons, h, ih]

theorem all_replicate_of_true {α : Type} (f : α → Bool) (a : α) (h : f a = true) :
    ∀ n, (List.replicate n a).all f = true := by
  intro n
  induction n with
  | zero => rfl
  | succ k ih => simp [List.replicate_succ, h, ih]

/-- C4: the extractor's output is the flat traversal list partitioned into
text descriptors followed by the rest, truncated to the 300-node cap; on a
tree of 400 text nodes the output is exactly 300 nodes, all of them text
nodes and none of them non-text nodes (scenario D). -/
theorem traverseNode_eq (i nm ty : Option String) (vis : Option Bool) (op : Option ℚ)
    (ch : Option String) (children : List ApiNode) (p : String) :
    traverseNode (.mk i nm ty vis op ch children) p =
      (if vis = some false then []
       else (if strTruthy ty && strTruthy i then
           [⟨i.getD "", nm, ty.getD "", currentPathOf p nm,
             if ty = some "TEXT" && strTruthy ch then ch else none⟩]
         else []) ++ traverseList children (childPath (currentPathOf p nm))) := rfl

set_option maxRecDepth 4000 in
/-- C4: the extractor's output is the flat traversal list partitioned into
text descriptors followed by the rest, truncated to the 300-node cap; on a
tree of 400 text nodes the output is exactly 300 nodes, all of them text
nodes and none of them non-text nodes (scenario D). -/
theorem text_priority_truncation :
    (∀ d : ApiNode, extractCanvasData (some d) =
      Except.ok ⟨d.name, ((traverseNode d "").filter isTextDesc ++
        (traverseNode d "").filter fun n => !(isTextDesc n)).take 300⟩)
    ∧ extractCanvasData (some bigDoc) = Except.ok ⟨some "Doc", List.replicate 300 descT⟩
    ∧ (List.replicate 300 descT).all (fun n => n.type == "TEXT" && n.text.isSome) = true := by
  have hall : ((List.replicate 300 descT).all fun n => n.type == "TEXT" && n.text.isSome) =
      true :=
    all_replicate_of_true (fun n => n.type == "TEXT" && n.text.isSome) descT (by decide) 300
  refine ⟨fun d => rfl, ?_, hall⟩
  have h1 : traverseNode bigDoc "" =
      (⟨"0:0", some "Doc", "DOCUMENT", some "Doc", none⟩ : Desc) :: List.replicate 400 descT := by
    rw [show bigDoc = ApiNode.mk (some "0:0") (some "Doc") (some "DOCUMENT") none none none
          (List.replicate 400 textNodeEx) from rfl, traverseNode_eq]
    rw [if_neg (by decide), if_pos (by decide)]
    rw [show childPath (currentPathOf "" (some "Doc")) = "Doc" from rfl,
      traverseList_replicate 400]
    rfl
  have base : extractCanvasData (some bigDoc) =
      Except.ok ⟨bigDoc.name, ((traverseNode bigDoc "").filter isTextDesc ++
        (traverseNode bigDoc "").filter fun n => !(isTextDesc n)).take 300⟩ := rfl
  rw [base, h1]
  simp only [List.filter_cons,
    show isTextDesc (⟨"0:0", some "Doc", "DOCUMENT", some "Doc", none⟩ : Desc) = false
      from rfl,
    filter_replicate_of_true isTextDesc descT rfl 400,
    filter_replicate_of_false (fun n => !(isTextDesc n)) descT (by decide) 400,
    Bool.false_eq_true, if_false, Bool.not_false, if_true]
  rw [List.take_append_of_le_length (by simp), List.take_replicate]
  rfl

/-- C10: a node lacking a truthy id or type is itself omitted, but its
children are still traversed, and its name still appears in its
descendants' breadcrumb path because the path is extended before the
inclusion check.  The concrete tree shows an id-less "Mid" group: "Mid"
is absent from the output ids while the leaf's path reads
"Root > Mid > Leaf". -/
theorem idless_nodes_transparent :
    (∀ (i nm ty : Option String) (vis : Option Bool) (op : Option ℚ) (ch : Option String)
        (children : List ApiNode) (p : String),
      vis ≠ some false → (strTruthy ty && strTruthy i) = false →
      traverseNode (.mk i nm ty vis op ch children) p =
        traverseList children (childPath (currentPathOf p nm)))
    ∧ traverseNode docMid "" =
        [⟨"r", some "Root", "FRAME", some "Root", none⟩,
         ⟨"l", some "Leaf", "TEXT", some "Root > Mid > Leaf", some "hi"⟩] := by
  constructor
  · intro i nm ty vis op ch children p h1 h2
    rw [traverseNode_eq, if_neg h1, h2]
    simp
  · decide

/-- C10 witness: the general equation applied to a concrete id-less node. -/
theorem idless_nodes_transparent_witness :
    traverseNode (.mk none (some "X") (some "GROUP") none none none []) "P" = [] := by
  have h := idless_nodes_transparent.1 none (some "X") (some "GROUP") none none none []
    "P" (by decide) (by decide)
  simpa [traverseList] using h

/-- C2: tier-0 normalization of a semicolon-delimited instance chain:
after stripping a leading "I" and dropping "0:"-prefixed segments, the
first segment present in `allNodes`, scanning from last to first, is
chosen (and marked found); when none is present the last remaining
segment is kept verbatim and left unfound.  Concretely, resolving
`"I9:27;11:20;0:1"` against a live index whose ids are exactly
`["11:20"]` yields `11:20`. -/
theorem tier0_chain_rule :
    (∀ (allNodes : List String) (raw : String),
      jsHasChar (stripI raw) ';' = true →
      chainCleanup allNodes raw =
        (((chainParts (stripI raw)).reverse.find? fun p => allNodes.contains p).elim
          ((chainParts (stripI raw)).getLast?, false) (fun p => (some p, true))))
    ∧ (buildIndex (some docBtn)).allNodes = ["11:20"]
    ∧ resolveNode (some docBtn) (buildIndex (some docBtn)) (some "I9:27;11:20;0:1") none =
        some "11:20" := by
  refine ⟨?_, by decide, by decide⟩
  intro allNodes raw h
  simp only [chainCleanup, h, if_true]
  rw [scanChainAux_eq_find allNodes _ _ (le_refl _), List.take_length]

/-- C2 witness: the chain rule applied to the concrete chain
`"9:27;0:3"` with live ids `["9:27"]`. -/
theorem tier0_chain_rule_witness :
    chainCleanup ["9:27"] "9:27;0:3" = (some "9:27", true) := by
  rw [tier0_chain_rule.1 ["9:27"] "9:27;0:3" (by decide)]
  decide

theorem extractNodeData_eq (i nm ty : String) (vis : Bool) (op : Option ℚ)
    (ch : Option (List PluginNode)) (d : Nat) :
    extractNodeData (.mk i nm ty vis op ch) d =
      (if d > 10 then none
       else if !vis then none
       else if op = some 0 then none
       else some (.mk i nm ty vis op
         (match ch with
          | none => none
          | some cs =>
            if (extractKids cs (d + 1)).length > 0 then some (extractKids cs (d + 1))
            else none))) := by
  cases ch <;> rfl

theorem collectD_eq (i nm ty : String) (vis : Bool) (op : Option ℚ)
    (ch : Option (List DesignNode)) :
    collectD (.mk i nm ty vis op ch) =
      .mk i nm ty vis op ch ::
        (match ch with
         | none => []
         | some cs => collectDList cs) := by
  cases ch <;> rfl

theorem mem_collectDList {m : DesignNode} {l : List DesignNode} :
    m ∈ collectDList l ↔ ∃ x ∈ l, m ∈ collectD x := by
  induction l with
  | nil => simp [collectDList]
  | cons x xs ih => simp [collectDList, ih]

mutual
theorem extractNodeData_clean : ∀ (n : PluginNode) (d : Nat) (out : DesignNode),
    extractNodeData n d = some out →
    ∀ m ∈ collectD out, m.visible = true ∧ m.opacity ≠ some 0
  | .mk i nm ty vis op ch, d, out, h, m, hm => by
    rw [extractNodeData_eq] at h
    by_cases hd : d > 10
    · rw [if_pos hd] at h
      exact absurd h (by simp)
    rw [if_neg hd] at h
    by_cases hv : vis
    case neg =>
      rw [if_pos (by simp [hv])] at h
      exact absurd h (by simp)
    rw [if_neg (by simp [hv])] at h
    by_cases ho : op = some 0
    · rw [if_pos ho] at h
      exact absurd h (by simp)
    rw [if_neg ho] at h
    have hout := Option.some.inj h
    subst hout
    cases ch with
    | none =>
      rw [collectD_eq] at hm
      rcases List.mem_cons.mp hm with rfl | hbad
      · exact ⟨by simpa [DesignNode.visible] using hv, by simpa [DesignNode.opacity] using ho⟩
      · exact absurd hbad (by simp)
    | some cs =>
      rw [collectD_eq] at hm
      rcases List.mem_cons.mp hm with rfl | hrest
      · exact ⟨by simpa [DesignNode.visible] using hv, by simpa [DesignNode.opacity] using ho⟩
      · dsimp only at hrest
        by_cases hl : (extractKids cs (d + 1)).length > 0
        · rw [if_pos hl] at hrest
          dsimp only at hrest
          obtain ⟨x, hx, hmx⟩ := mem_collectDList.mp hrest
          exact extractKids_clean cs (d + 1) x hx m hmx
        · rw [if_neg hl] at hrest
          dsimp only at hrest
          exact absurd hrest (by simp)

theorem extractKids_clean : ∀ (cs : List PluginNode) (d : Nat) (x : DesignNode),
    x ∈ extractKids cs d → ∀ m ∈ collectD x, m.visible = true ∧ m.opacity ≠ some 0
  | [], _, x, hx, m, hm => by simp [extractKids] at hx
  | c :: cs, d, x, hx, m, hm => by
    rw [extractKids] at hx
    cases he : extractNodeData c d with
    | some y =>
      rw [he] at hx
      rcases List.mem_cons.mp hx with rfl | hx2
      · exact extractNodeData_clean c d x he m hm
      · exact extractKids_clean cs d x hx2 m hm
    | none =>
      rw [he] at hx
      exact extractKids_clean cs d x hx m hm
end

/-- C3 (amended): the plugin extractor excludes a node (with its whole
subtree) when `visible` is false or its opacity is exactly 0, so every
descriptor in its output is visible with non-zero opacity; the server-side
extractor excludes `visible === false` subtrees but performs no opacity
check at all. -/
theorem invisible_and_zero_opacity_excluded :
    (∀ (n : PluginNode) (d : Nat), (n.visible = false ∨ n.opacity = some 0) →
      extractNodeData n d = none)
    ∧ (∀ (n : PluginNode) (d : Nat) (out : DesignNode), extractNodeData n d = some out →
        ∀ m ∈ collectD out, m.visible = true ∧ m.opacity ≠ some 0)
    ∧ (∀ (n : ApiNode) (p : String), n.visible = some false → traverseNode n p = []) := by
  refine ⟨?_, extractNodeData_clean, ?_⟩
  · intro n d h
    cases n with
    | mk i nm ty vis op ch =>
      rw [extractNodeData_eq]
      rcases h with h | h
      · simp only [PluginNode.visible] at h
        subst h
        simp
      · simp only [PluginNode.opacity] at h
        simp [h]
  · intro n p h
    cases n with
    | mk i nm ty vis op ch =>
      simp only [ApiNode.visible] at h
      rw [traverseNode_eq, if_pos h]

/-- C3 witness: the plugin exclusion applied to a visible node with
opacity exactly 0. -/
theorem invisible_and_zero_opacity_excluded_witness :
    extractNodeData (.mk "w" "W" "FRAME" true (some 0) none) 0 = none :=
  invisible_and_zero_opacity_excluded.1 (.mk "w" "W" "FRAME" true (some 0) none) 0
    (Or.inr rfl)

/-- C3 counterexample: the server-side extractor emits a descriptor for a
node whose opacity is exactly 0 — the claim fails for it. -/
theorem opacity_zero_included_serverside :
    extractCanvasData (some exOp) =
      Except.ok ⟨some "Ghost", [⟨"1:1", some "Ghost", "FRAME", some "Ghost", none⟩]⟩
    ∧ exOp.opacity = some 0 :=
  ⟨rfl, rfl⟩

/-- C5 (amended): only the plugin extractor caps recursion, at depth 10:
any node reached beyond the cap is dropped with its descendants, so a
21-deep chain yields 11 descriptors; the server-side traversal has no
depth cap — a 13-deep chain yields all 13 descriptors. -/
theorem depth_cap_plugin_only :
    (∀ (n : PluginNode) (d : Nat), 10 < d → extractNodeData n d = none)
    ∧ (extractNodeData (plugChain 20) 0).map (fun o => (collectD o).length) = some 11
    ∧ (traverseNode (apiChain 12) "").length = 13 := by
  refine ⟨?_, by decide, by decide⟩
  intro n d h
  cases n with
  | mk i nm ty vis op ch => rw [extractNodeData_eq, if_pos h]

/-- C5 witness: the depth cap applied to a concrete node at depth 11. -/
theorem depth_cap_plugin_only_witness :
    extractNodeData (plugChain 0) 11 = none :=
  depth_cap_plugin_only.1 (plugChain 0) 11 (by norm_num)

/-- C5 counterexample: the server-side extractor has no depth-10 cap; the
node nested at depth 12 of a 13-node chain still appears in the output. -/
theorem depth_cap_refuted_serverside :
    (traverseNode (apiChain 12) "").length = 13
    ∧ ((traverseNode (apiChain 12) "").map Desc.id).contains "deep" = true := by
  decide

theorem scanChainAux_mem {allNodes parts : List String} :
    ∀ {k : Nat} {p : String}, scanChainAux allNodes parts k = some p → p ∈ allNodes := by
  intro k
  induction k with
  | zero => intro p h; simp [scanChainAux] at h
  | succ n ih =>
    intro p h
    rw [scanChainAux] at h
    cases hc : allNodes.contains (parts.getD n "") with
    | true =>
      rw [if_pos hc] at h
      cases h
      exact mem_of_containsStr hc
    | false =>
      rw [hc] at h
      simp only [Bool.false_eq_true, if_false] at h
      exact ih h

theorem chainCleanup_found {allNodes : List String} {raw : String}
    (h : (chainCleanup allNodes raw).2 = true) :
    ∃ p, (chainCleanup allNodes raw).1 = some p ∧ p ∈ allNodes := by
  by_cases hsemi : jsHasChar (stripI raw) ';' = true
  · simp only [chainCleanup, hsemi, if_true] at h ⊢
    cases hscan : scanChainAux allNodes (chainParts (stripI raw))
        (chainParts (stripI raw)).length with
    | none => rw [hscan] at h; simp at h
    | some p =>
      exact ⟨p, by simp, scanChainAux_mem hscan⟩
  · simp only [chainCleanup, hsemi, if_false] at h
    simp at h

theorem tier01_sound (allNodes : List String) (claimed : Option String)
    (h : (tierOne allNodes (tierZero allNodes claimed)).2 = true) :
    ∃ p, (tierOne allNodes (tierZero allNodes claimed)).1 = some p ∧ p ∈ allNodes := by
  rw [tierOne] at h ⊢
  simp only at h ⊢
  cases h0 : (tierZero allNodes claimed).2 with
  | true =>
    cases claimed with
    | none => rw [tierZero] at h0; simp at h0
    | some raw =>
      rw [tierZero] at h0 ⊢
      by_cases hr : raw ≠ ""
      · rw [if_pos hr] at h0 ⊢
        exact chainCleanup_found h0
      · rw [if_neg hr] at h0
        simp at h0
  | false =>
    rw [h0] at h
    simp only [Bool.false_or, Bool.and_eq_true] at h
    obtain ⟨ht, hc⟩ := h
    cases h1 : (tierZero allNodes claimed).1 with
    | none => rw [h1] at ht; simp [strTruthy] at ht
    | some s =>
      rw [h1] at hc
      exact ⟨s, rfl, mem_of_containsStr (by simpa using hc)⟩

theorem tierTwo_sound (doc : Option ApiNode) (idx : LiveIndex) (loc : Option String)
    (st : Option String × Bool)
    (h0 : st.2 = true → ∃ p, st.1 = some p ∧ p ∈ idx.allNodes)
    (h : (tierTwo doc idx loc st).2 = true) :
    ∃ p, (tierTwo doc idx loc st).1 = some p ∧ p ∈ idx.allNodes := by
  by_cases hcond : (!st.2 && strTruthy loc) = true
  · cases doc with
    | none =>
      have hni : tierTwo none idx loc st = st := by
        rw [tierTwo.eq_def, if_pos hcond]
      rw [hni] at h ⊢
      exact h0 h
    | some d =>
      have hni : tierTwo (some d) idx loc st =
          (if (strTruthy (findNodeByName d (loc.getD "")) &&
              idx.allNodes.contains ((findNodeByName d (loc.getD "")).getD "")) = true
           then (findNodeByName d (loc.getD ""), true) else st) := by
        rw [tierTwo.eq_def, if_pos hcond]
      rw [hni] at h ⊢
      by_cases hfind : (strTruthy (findNodeByName d (loc.getD "")) &&
          idx.allNodes.contains ((findNodeByName d (loc.getD "")).getD "")) = true
      · rw [if_pos hfind] at h ⊢
        simp only [Bool.and_eq_true] at hfind
        obtain ⟨ht, hc⟩ := hfind
        cases hf : findNodeByName d (loc.getD "") with
        | none => rw [hf] at ht; simp [strTruthy] at ht
        | some s =>
          rw [hf] at hc
          exact ⟨s, by simp [hf], mem_of_containsStr (by simpa using hc)⟩
      · rw [if_neg hfind] at h ⊢
        exact h0 h
  · have hni : tierTwo doc idx loc st = st := by
      rw [tierTwo.eq_def, if_neg hcond]
    rw [hni] at h ⊢
    exact h0 h

theorem tierThree_sound (idx : LiveIndex)
    (hne : ∀ id ∈ idx.allNodes, id ≠ "")
    (hgood : ∃ id ∈ idx.allNodes, jsStartsWith id "0:" = false ∧ jsHasChar id ';' = false)
    (st : Option String × Bool)
    (h0 : st.2 = true → ∃ p, st.1 = some p ∧ p ∈ idx.allNodes) :
    ∃ r, tierThree idx.allNodes st = some r ∧ r ∈ idx.allNodes := by
  rw [tierThree]
  cases hb : st.2 with
  | true =>
    simp only [hb, Bool.not_true, Bool.false_eq_true, if_false]
    exact h0 hb
  | false =>
    simp only [hb, Bool.not_false, if_true]
    have hsome : (idx.allNodes.find? fun id =>
        !(jsStartsWith id "0:") && !(jsHasChar id ';')).isSome = true := by
      rw [List.find?_isSome]
      obtain ⟨x, hx, h1, h2⟩ := hgood
      exact ⟨x, hx, by simp [h1, h2]⟩
    obtain ⟨y, hy⟩ := Option.isSome_iff_exists.mp hsome
    have hmem : y ∈ idx.allNodes := List.mem_of_find?_eq_some hy
    rw [hy]
    rw [if_pos (show strTruthy (some y) = true by simp [strTruthy, hne y hmem])]
    exact ⟨y, rfl, hmem⟩

/-- C1 (amended): whenever the live index's ids are all non-empty and at
least one of them is neither a `0:`-root id nor a compound (semicolon)
id, tiered resolution never throws and always lands on some id present in
`allIds`, for every claimed node id and location.  (Without such an id,
tier 3's `find(...) || allNodes[2]` can produce `undefined`, see the
counterexample.) -/
theorem resolver_totality (idx : LiveIndex)
    (hne : ∀ id ∈ idx.allNodes, id ≠ "")
    (hgood : ∃ id ∈ idx.allNodes, jsStartsWith id "0:" = false ∧ jsHasChar id ';' = false)
    (doc : Option ApiNode) (claimed loc : Option String) :
    ∃ r, resolveNode doc idx claimed loc = some r ∧ r ∈ idx.allNodes := by
  rw [resolveNode]
  exact tierThree_sound idx hne hgood _
    (fun h2 => tierTwo_sound doc idx loc _ (fun h1 => tier01_sound idx.allNodes claimed h1) h2)

/-- C1 witness: totality applied to a one-node index with the plain id
`5:1`. -/
theorem resolver_totality_witness :
    ∃ r, resolveNode none ⟨["5:1"], [], [], []⟩ none none = some r ∧ r ∈ ["5:1"] :=
  resolver_totality ⟨["5:1"], [], [], []⟩ (by decide) (by decide) none none none

/-- C1 counterexample: for the non-empty live index built from a document
whose only node is the root `0:0`, resolution of an item without nodeId
and location returns `undefined` (`none`), which is not an id in
`allIds` — the claim fails as stated. -/
theorem resolver_totality_refuted :
    (buildIndex (some doc0)).allNodes = ["0:0"]
    ∧ resolveNode (some doc0) (buildIndex (some doc0)) none none = none := by
  decide

theorem resolveNode_plain (doc : Option ApiNode) (idx : LiveIndex) (loc : Option String)
    {nid : String} (hne : nid ≠ "") (hI : jsStartsWith nid "I" = false)
    (hsemi : jsHasChar nid ';' = false) (hmem : nid ∈ idx.allNodes) :
    resolveNode doc idx (some nid) loc = some nid := by
  have hstrip : stripI nid = nid := by
    rw [stripI, hI]
    simp
  have h0 : tierZero idx.allNodes (some nid) = (some nid, false) := by
    rw [tierZero, if_pos hne]
    simp only [chainCleanup, hstrip, hsemi, Bool.false_eq_true, if_false]
  have h1 : tierOne idx.allNodes (some nid, false) = (some nid, true) := by
    rw [tierOne]
    simp [strTruthy, hne, hmem]
  have h2 : tierTwo doc idx loc (some nid, true) = (some nid, true) := by
    rw [tierTwo.eq_def]
    simp
  have h3 : tierThree idx.allNodes (some nid, true) = some nid := by
    rw [tierThree]
    simp
  rw [resolveNode, h0, h1, h2, h3]

theorem sameNodeCount_eq (doc : Option ApiNode) (idx : LiveIndex) (items : List FbItem)
    (i : Nat) (it : FbItem) (hget : items.get? i = some it) (r : Option String)
    (hr : resolvedOf doc idx it = r) :
    sameNodeCount doc idx items i =
      ((items.take i).filter fun f =>
        finalNodeOf idx r == some (if shouldUseParentOf idx r
          then findParentFrame idx (f.nodeId.getD "") else f.nodeId.getD "")).length := by
  rw [sameNodeCount, hget]
  dsimp only
  rw [hr]

/-- C9 (amended): when every item in the batch carries the same plain
claimed node id — non-empty, no `I` prefix, no semicolons, present in
`allIds` — the item at position `i` is placed at horizontal offset
`50 + i * 250` (strictly increasing across the batch, which resolves to
one shared target) and vertical offset `50 + i * 120`.  The original
claim fails when the shared target is reached through instance-chain
ids, because the spread counter compares previous items' raw `nodeId`
strings (see the counterexample). -/
theorem offset_spread_same_plain_id (doc : Option ApiNode) (idx : LiveIndex)
    (items : List FbItem) (nid : String)
    (hall : ∀ it ∈ items, it.nodeId = some nid)
    (hne : nid ≠ "") (hI : jsStartsWith nid "I" = false)
    (hsemi : jsHasChar nid ';' = false) (hmem : nid ∈ idx.allNodes) :
    ∀ i, i < items.length →
      offsetXOf doc idx items i = 50 + i * 250 ∧ offsetYOf i = 50 + i * 120 := by
  intro i hi
  refine ⟨?_, rfl⟩
  have hres : resolvedOf doc idx (items.get ⟨i, hi⟩) = some nid := by
    rw [resolvedOf, hall _ (items.get_mem i hi)]
    exact resolveNode_plain doc idx _ hne hI hsemi hmem
  rw [offsetXOf, sameNodeCount_eq doc idx items i _ (List.get?_eq_get hi) (some nid) hres]
  have hfil : ((items.take i).filter fun f =>
      finalNodeOf idx (some nid) == some (if shouldUseParentOf idx (some nid)
        then findParentFrame idx (f.nodeId.getD "") else f.nodeId.getD "")) =
      items.take i := by
    rw [List.filter_eq_self]
    intro f hf
    have hfn : f.nodeId = some nid := hall f (List.mem_of_mem_take hf)
    rw [hfn]
    cases hsup : shouldUseParentOf idx (some nid) with
    | true => simp [finalNodeOf, hsup]
    | false => simp [finalNodeOf, hsup]
  rw [hfil, List.length_take, Nat.min_eq_left (le_of_lt hi)]

/-- C9 witness: five items sharing the plain id `3:4` (a TEXT leaf
promoted to frame `2:2`) get strictly increasing horizontal offsets;
item 1 sits at 300 = 50 + 250. -/
theorem offset_spread_same_plain_id_witness :
    offsetXOf (some docC) idxC itemsPlain 1 = 50 + 1 * 250
      ∧ offsetYOf 1 = 50 + 1 * 120 :=
  offset_spread_same_plain_id (some docC) idxC itemsPlain "3:4" (by decide) (by decide)
    (by decide) (by decide) (by decide) 1 (by decide)

/-- C9 counterexample: five items that all resolve — after parent
promotion — to the same frame `2:2`, but through the instance-chain id
`I0:9;3:4`: the 2nd through 5th comments get the same horizontal offset
as the 1st (all 50), not strictly increasing ones, because the spread
counter runs the previous items' raw `nodeId` through `findParentFrame`
and the raw chain string never matches the promoted target. -/
theorem offset_spread_refuted :
    (itemsChain.all fun it =>
      finalNodeOf idxC (resolvedOf (some docC) idxC it) == some "2:2") = true
    ∧ offsetXOf (some docC) idxC itemsChain 0 = 50
    ∧ offsetXOf (some docC) idxC itemsChain 1 = 50
    ∧ offsetXOf (some docC) idxC itemsChain 4 = 50 := by
  decide

theorem filter_length_split {α : Type} (p : α → Bool) (l : List α) :
    (l.filter p).length + (l.filter fun x => !(p x)).length = l.length := by
  induction l with
  | nil => rfl
  | cons x xs ih =>
    cases hp : p x <;> simp [List.filter_cons, hp, ← ih] <;> omega

theorem postLoopFrom_spec (post : Nat → PostOutcome) :
    ∀ (n i : Nat),
      postLoopFrom post i n =
        (((List.range' i n).filter fun j => post j == .posted).length,
         ((List.range' i n).filter fun j => !(post j == .posted)).map
           fun j => "Comment " ++ toString (j + 1) ++ ": " ++ outcomeMsg (post j)) := by
  intro n
  induction n with
  | zero => intro i; simp [postLoopFrom]
  | succ k ih =>
    intro i
    rw [postLoopFrom, ih (i + 1)]
    cases hp : post i with
    | posted => simp [List.range'_succ, List.filter_cons, hp, outcomeMsg]
    | httpError m => simp [List.range'_succ, List.filter_cons, hp, outcomeMsg]
    | thrown m => simp [List.range'_succ, List.filter_cons, hp, outcomeMsg]

/-- C8: the dispatcher's posting loop processes every item in order and
never aborts: the posted counter counts exactly the successful items,
the errors list holds exactly one `Comment <index+1>: …` entry for each
failed item in order, the two always sum to the batch size, and the
envelope reports success, the total, and the collected errors (omitted
when empty). -/
theorem dispatcher_isolation (post : Nat → PostOutcome) (items : List FbItem) :
    (dispatch post items).success = true
    ∧ (dispatch post items).total = items.length
    ∧ (dispatch post items).commentsPosted =
        ((List.range items.length).filter fun i => post i == .posted).length
    ∧ errListOf post items =
        ((List.range items.length).filter fun i => !(post i == .posted)).map
          (fun i => "Comment " ++ toString (i + 1) ++ ": " ++ outcomeMsg (post i))
    ∧ (dispatch post items).commentsPosted + (errListOf post items).length = items.length
    ∧ (dispatch post items).errors =
        (if errListOf post items = [] then none else some (errListOf post items)) := by
  have hspec := postLoopFrom_spec post items.length 0
  have hrange : List.range items.length = List.range' 0 items.length :=
    List.range_eq_range' items.length
  refine ⟨rfl, rfl, ?_, ?_, ?_, ?_⟩
  · show (postLoopFrom post 0 items.length).1 = _
    rw [hspec, hrange]
  · show (postLoopFrom post 0 items.length).2 = _
    rw [hspec, hrange]
  · show (postLoopFrom post 0 items.length).1 + (postLoopFrom post 0 items.length).2.length
        = items.length
    rw [hspec]
    simp only [List.length_map]
    rw [filter_length_split (fun j => post j == .posted) (List.range' 0 items.length)]
    simp [List.length_range']
  · show (if (postLoopFrom post 0 items.length).2.length > 0 then
        some (postLoopFrom post 0 items.length).2 else none) = _
    cases herr : (postLoopFrom post 0 items.length).2 with
    | nil => simp [errListOf, herr]
    | cons e es => simp [errListOf, herr]

theorem getField_obj_map_id (fs : List (String × Json)) (v : Json) :
    getField (Json.obj (fs.map fun p => if p.1 = "id" then (p.1, v) else p)) "category" =
      getField (Json.obj fs) "category" := by
  induction fs with
  | nil => rfl
  | cons q qs ih =>
    obtain ⟨k0, v0⟩ := q
    by_cases h0 : k0 = "id"
    · subst h0
      simpa [getField, List.find?_cons] using ih
    · by_cases hc : k0 = "category"
      · subst hc
        simp [getField, List.find?_cons, h0]
      · simpa [getField, List.find?_cons, h0, hc] using ih

theorem getField_obj_append_id (fs : List (String × Json)) (v : Json) :
    getField (Json.obj (fs ++ [("id", v)])) "category" = getField (Json.obj fs) "category" := by
  induction fs with
  | nil => rfl
  | cons q qs ih =>
    obtain ⟨k0, v0⟩ := q
    by_cases hc : k0 = "category"
    · subst hc
      simp [getField, List.find?_cons]
    · simp only [getField, List.find?_cons, hc] at ih ⊢
      simp [hc, ih]

theorem getField_withId (j v : Json) :
    getField (withId j v) "category" = getField j "category" := by
  cases j with
  | obj fs =>
    rw [withId]
    by_cases hk : hasKey fs "id" = true
    · rw [if_pos hk]
      exact getField_obj_map_id fs v
    · rw [if_neg hk]
      exact getField_obj_append_id fs v
  | null => rfl
  | bool b => rfl
  | num n => rfl
  | str s => rfl
  | arr xs => rfl

theorem withIds_length (now : Nat) :
    ∀ (l : List Json) (s : Nat), (withIds now l s).length = l.length := by
  intro l
  induction l with
  | nil => intro s; rfl
  | cons x xs ih => intro s; simp [withIds, ih (s + 1)]

theorem withIds_cat (now : Nat) :
    ∀ (l : List Json) (s i : Nat),
      getField ((withIds now l s).getD i .null) "category" =
        getField (l.getD i .null) "category" := by
  intro l
  induction l with
  | nil => intro s i; rfl
  | cons x xs ih =>
    intro s i
    cases i with
    | zero =>
      show getField (withId x _) "category" = getField x "category"
      exact getField_withId x _
    | succ n =>
      show getField ((withIds now xs (s + 1)).getD n .null) "category" = _
      exact ih (s + 1) n

/-- C7: for every model output that parsed to a JSON array, and every
`allowedCategories` set, the feedback-parsing stage neither throws on an
item whose category lies outside the set nor removes it: processing
succeeds, keeps every element (only overwriting `id`), preserves each
element's `category`, and in particular keeps any out-of-set category
verbatim.  (`allowedCategories` is quantified but unused because the
parsing stage of the source never consults it.) -/
theorem category_soft_enforcement :
    ∀ (items : List Json) (now : Nat) (allowed : List String),
      (processFeedback (.arr items) now).isOk = true
      ∧ (∀ out, processFeedback (.arr items) now = Except.ok out →
          out.length = items.length
          ∧ ∀ i : Nat, getField (out.getD i .null) "category" =
              getField (items.getD i .null) "category")
      ∧ (∀ c : String, c ∉ allowed →
          ∀ i : Nat, getField (items.getD i .null) "category" = some (.str c) →
            getField ((withIds now items 0).getD i .null) "category" = some (.str c)) := by
  intro items now allowed
  refine ⟨rfl, ?_, ?_⟩
  · intro out hout
    have hout2 : withIds now items 0 = out := by
      have := hout
      rw [processFeedback] at this
      exact Except.ok.inj this
    subst hout2
    exact ⟨withIds_length now items 0, fun i => withIds_cat now items 0 i⟩
  · intro c _ i hcat
    rw [withIds_cat now items 0 i, hcat]

/-- C7 witness: an item with the out-of-set category `weird` (allowed set
`["ux"]`) survives processing with its category intact. -/
theorem category_soft_enforcement_witness :
    getField ((withIds 7 [Json.obj [("category", Json.str "weird")]] 0).getD 0 .null)
      "category" = some (.str "weird") :=
  (category_soft_enforcement [Json.obj [("category", Json.str "weird")]] 7 ["ux"]).2.2
    "weird" (by simp) 0 rfl
